import Mathlib

/-!
Shallow embedding of the realtime speech-to-speech translation server
(`src/server/src/server`): the phrase segmentation and transcription worker
(`models/speech_recognition.py`), the synthesis worker
(`models/text_to_speech.py`), and the socket server / output dispatcher
(`server.py`).

Conventions of the embedding:
* Clients are opaque identifiers (the Python code passes socket objects
  around; downstream code only compares them for identity and uses them as
  send targets).
* Wall-clock times are natural numbers of milliseconds; the configuration
  constant `phrase_timeout = 1` second of the Python code becomes
  `phrase_timeout_ms = 1000`.  A `datetime` difference compared against a
  positive `timedelta` matches truncated `Nat` subtraction compared with `<`.
* The Whisper transcription engine (the `sr.AudioData`/`soundfile` conversion
  followed by `audio_model.transcribe` and the `["text"]` lookup) is an
  abstract function from the raw byte buffer to `Option String`; `none`
  models the `except Exception` path of `__transcribe_audio__` (anything in
  the `try` block raising), `some raw` a successful call returning `raw`
  before the `.strip()` that the Python code applies.
* The SpeechT5 synthesis engine (`synthesise_blocking`) is an abstract total
  function from text to an audio buffer, used when a claim assumes the
  engine succeeds.
* Python truthiness tests on strings (`if text:`) become `≠ ""`, and on
  possibly-`None` objects (`if self.current_client:`) become `Option.isSome`.
* Callbacks are modelled by returning the list of events the code would have
  delivered through them, in order.
-/

namespace SpeechServer

/-- Opaque identifier of a connected client socket. -/
abbrev ClientId := Nat

/-- Raw audio bytes as popped from the data queue. -/
abbrev Chunk := List Nat

/-- Wall-clock timestamps in milliseconds. -/
abbrev Millis := Nat

/-- `self.phrase_timeout = 1` (second), as milliseconds. -/
def phrase_timeout_ms : Millis := 1000

/-- Mutable state of `SpeechRecognitionModel` touched by the worker loop:
`phrase_time`, `last_sample`, `recent_transcription`, `current_client`.
`phrase_time` is kept as an `Option` to mirror the `if self.phrase_time`
truthiness guards; the constructor initialises it to the current time. -/
structure SRState where
  phrase_time : Option Millis
  last_sample : Chunk
  recent_transcription : String
  current_client : Option ClientId
deriving DecidableEq

/-- The state `SpeechRecognitionModel.__init__` builds (start time taken as
0): `phrase_time = utcnow()`, `last_sample = b""`,
`recent_transcription = ""`, `current_client = None`. -/
def srInit : SRState :=
  { phrase_time := some 0, last_sample := [], recent_transcription := "",
    current_client := none }

/-- One `final_callback(recent_transcription, current_client)` delivery: the
finalized phrase text and the client it is attributed to (the Python call
passes `self.current_client`, which can still be `None`). -/
abbrev FinalEvent := String × Option ClientId

/-- One `generation_callback({"add": …, "text": …, "transcribe_time": …})`
delivery (the elapsed-time field, a wall-clock measurement, is not part of
the embedding). -/
structure GenEvent where
  add : Bool
  text : String
deriving DecidableEq

/-- The transcription engine: buffer of raw bytes to the returned text,
`none` when the call raises. -/
abbrev Engine := Chunk → Option String

/-- Python's `str.strip()` (no argument): drop whitespace from both ends.
(`String.trim` of the core library is extensionally the same but is defined
by well-founded recursion on byte positions, which concrete witnesses cannot
evaluate by `decide`; this structural version can.) -/
def pyStrip (s : String) : String :=
  ⟨((s.data.dropWhile Char.isWhitespace).reverse.dropWhile Char.isWhitespace).reverse⟩

/-- `__update_phrase_time__(current_time)`: if enough time passed since
`phrase_time`, reset `phrase_time`, clear the buffer, and report the phrase
complete.  Returns `(phrase_complete, new state)`. -/
def update_phrase_time (current_time : Millis) (s : SRState) : Bool × SRState :=
  match s.phrase_time with
  | some pt =>
      if phrase_timeout_ms < current_time - pt then
        (true, { s with phrase_time := some current_time, last_sample := [] })
      else
        (false, s)
  | none => (false, s)

/-- `__flush_last_phrase__(current_time)`: if no audio arrived for longer than
the timeout and there is a pending transcription for a known client, deliver
it through `final_callback`, clear `recent_transcription`, reset
`phrase_time` and clear the buffer. -/
def flush_last_phrase (current_time : Millis) (s : SRState) : SRState × List FinalEvent :=
  match s.phrase_time with
  | some pt =>
      if phrase_timeout_ms < current_time - pt then
        if s.recent_transcription ≠ "" ∧ s.current_client.isSome then
          ({ s with
              recent_transcription := "",
              phrase_time := some current_time,
              last_sample := [] },
           [(s.recent_transcription, s.current_client)])
        else
          (s, [])
      else
        (s, [])
  | none => (s, [])

/-- `__concatenate_new_audio__`: drain the data queue; on every popped item
whose client differs from `current_client`, deliver `final_callback`
(unconditionally), clear `recent_transcription`, reset `phrase_time` (the
Python code calls `datetime.utcnow()` there; the tick's `now` stands for it)
and clear the buffer; then append the item's bytes and take ownership. -/
def concatenate_new_audio (now : Millis) (queue : List (ClientId × Chunk)) (s : SRState) :
    SRState × List FinalEvent :=
  match queue with
  | [] => (s, [])
  | (client, data) :: rest =>
      let switched :=
        if some client ≠ s.current_client then
          ({ s with
              recent_transcription := "",
              phrase_time := some now,
              last_sample := [] },
           [(s.recent_transcription, s.current_client)])
        else
          (s, ([] : List FinalEvent))
      let s2 := { switched.1 with
                  last_sample := switched.1.last_sample ++ data,
                  current_client := some client }
      let r := concatenate_new_audio now rest s2
      (r.1, switched.2 ++ r.2)

/-- `__transcribe_audio__(sample_rate, sample_width, phrase_complete)`: run
the engine on the whole current buffer; on success strip the text, and if it
is non-empty deliver a generation packet, finalize the previous phrase when
`phrase_complete` and there is one for a known client, and overwrite
`recent_transcription`.  When the engine raises (`none`), everything is
caught and logged and nothing changes.  Returns
`(state, generation packets, finalized phrases)`. -/
def transcribe_audio (engine : Engine) (phrase_complete : Bool) (s : SRState) :
    SRState × List GenEvent × List FinalEvent :=
  match engine s.last_sample with
  | none => (s, [], [])
  | some raw =>
      let text := pyStrip raw
      if text ≠ "" then
        let fins :=
          if phrase_complete ∧ s.recent_transcription ≠ "" ∧ s.current_client.isSome then
            [(s.recent_transcription, s.current_client)]
          else
            []
        ({ s with recent_transcription := text }, [⟨phrase_complete, text⟩], fins)
      else
        (s, [], [])

/-- Result of one iteration of the `__worker__` loop: the new state and the
events delivered during it. -/
structure TickResult where
  state : SRState
  gens : List GenEvent
  finals : List FinalEvent
deriving DecidableEq

/-- One iteration of `__worker__`: flush, then — when the data queue is
non-empty — compute the silence boundary, drain the queue, and transcribe.
`queue` is the content of `data_queue` at this iteration. -/
def tick (engine : Engine) (now : Millis) (queue : List (ClientId × Chunk)) (s : SRState) :
    TickResult :=
  let fl := flush_last_phrase now s
  if queue.isEmpty then
    ⟨fl.1, [], fl.2⟩
  else
    let up := update_phrase_time now fl.1
    let cat := concatenate_new_audio now queue up.2
    let tr := transcribe_audio engine up.1 cat.1
    ⟨tr.1, tr.2.1, fl.2 ++ cat.2 ++ tr.2.2⟩

/-- Several iterations of `__worker__`: each input is the wall-clock time of
the iteration and the data-queue content it finds.  Events accumulate in
order. -/
def srRun (engine : Engine) (inputs : List (Millis × List (ClientId × Chunk))) (s : SRState) :
    TickResult :=
  match inputs with
  | [] => ⟨s, [], []⟩
  | (now, q) :: rest =>
      let r := tick engine now q s
      let r2 := srRun engine rest r.state
      ⟨r2.state, r.gens ++ r2.gens, r.finals ++ r2.finals⟩

/-- The silence-boundary condition as the specification words it:
`(phraseTime set) AND (now - phraseTime > phraseTimeout)`.  Stated
separately from `update_phrase_time` so the code's boundary computation can
be compared against the spec's formula. -/
def boundaryBySilenceSpec (now : Millis) (s : SRState) : Bool :=
  match s.phrase_time with
  | some pt => decide (phrase_timeout_ms < now - pt)
  | none => false

/-- Synthesized audio samples (a tensor in the Python code). -/
abbrev Audio := List Int

/-- The synthesis engine (`synthesise_blocking`) on a tick where it
succeeds: text to synthesized audio. -/
abbrev SynthEngine := String → Audio

/-- Mutable state of `TextToSpeechModel`: the speaker embeddings (`none`
until `load_speaker_embeddings` ran — the attribute does not even exist
before that, so any use fails) and the task queue of
`(client_socket, text)` pairs. -/
structure TTSState where
  speaker_embeddings : Option (List Int)
  task_queue : List (ClientId × String)
deriving DecidableEq

/-- The state `TextToSpeechModel.__init__` builds: no embeddings loaded yet,
empty `task_queue = Queue()` (created with no `maxsize` argument, hence
unbounded). -/
def ttsInit : TTSState :=
  { speaker_embeddings := none, task_queue := [] }

/-- `load_speaker_embeddings()`: load the voice profile. -/
def load_speaker_embeddings (emb : List Int) (st : TTSState) : TTSState :=
  { st with speaker_embeddings := some emb }

/-- `synthesise(text, client_socket)`: refuse (raise) unless the speaker
embeddings are loaded, else append the task to the queue.  `Except.error`
models the raise (in Python, an `AttributeError` when the attribute was
never set, or the explicit `Exception` when it is `None`; either way the
call fails before the task is enqueued). -/
def synthesise (st : TTSState) (text : String) (client_socket : ClientId) :
    Except String TTSState :=
  if st.speaker_embeddings.isNone then
    Except.error ("TextToSpeech: Load speaker embeddings before synthesizing")
  else
    Except.ok { st with task_queue := st.task_queue ++ [(client_socket, text)] }

/-- One iteration of `TextToSpeechModel.worker` in which the queue is
non-empty: pop `(client, text)`, synthesize, deliver
`callback_function(audio, client)`.  Returns the new state and the delivered
`(audio, client)` results. -/
def tts_worker_step (synth : SynthEngine) (st : TTSState) : TTSState × List (Audio × ClientId) :=
  match st.task_queue with
  | [] => (st, [])
  | (client, text) :: rest =>
      ({ st with task_queue := rest }, [(synth text, client)])

/-- `AudioSocketServer.handle_transcription(packet, client_socket)` — the
`final_callback` of the transcriber: hand the finalized phrase to
`text_to_speech.synthesise`. -/
def handle_transcription (tts : TTSState) (packet : String) (client_socket : ClientId) :
    Except String TTSState :=
  synthesise tts packet client_socket

/-- Number of pending entries of the synthesis task queue. -/
def pendingCount (st : TTSState) : Nat := st.task_queue.length

/-- States of `TextToSpeechModel` the server can reach: the initial state,
then any interleaving of `load_speaker_embeddings`, successful `synthesise`
calls, and worker iterations. -/
inductive TTSReachable : TTSState → Prop where
  | start : TTSReachable ttsInit
  | load (emb : List Int) {s : TTSState} :
      TTSReachable s → TTSReachable (load_speaker_embeddings emb s)
  | put (text : String) (client : ClientId) {s s2 : TTSState} :
      TTSReachable s → synthesise s text client = Except.ok s2 → TTSReachable s2
  | drain (synth : SynthEngine) {s : TTSState} :
      TTSReachable s → TTSReachable (tts_worker_step synth s).1

/-- `AudioSocketServer.CHUNK`, the fixed `recv` size. -/
def CHUNK : Nat := 4096

/-- What a readable client socket holds when the multiplexer polls it. -/
inductive RecvOutcome where
  | avail (pending : List Nat)
  | reset

/-- The client-socket branch of the `select` loop in
`AudioSocketServer.start`: `data = s.recv(4096)` reads at most `CHUNK` of
the pending bytes (`[]` pending = orderly close, `recv` returns `b""`); on
data, push `(s, data)` onto `data_queue`; on `b""` or
`ConnectionResetError`, remove `s` from `read_list`.  Returns
`(read_list, data_queue)`. -/
def recv_step (read_list : List ClientId) (data_queue : List (ClientId × Chunk))
    (s : ClientId) (outcome : RecvOutcome) : List ClientId × List (ClientId × Chunk) :=
  match outcome with
  | RecvOutcome.avail pending =>
      let data := pending.take CHUNK
      if data ≠ [] then
        (read_list, data_queue ++ [(s, data)])
      else
        (read_list.erase s, data_queue)
  | RecvOutcome.reset => (read_list.erase s, data_queue)

/-- Whether `client_socket.sendall` succeeds or raises
`ConnectionResetError`. -/
inductive SendOutcome where
  | ok
  | connReset

/-- `AudioSocketServer.stream_numpy_array_audio(audio, client_socket)`: a
`None` socket is logged and dropped; otherwise the audio bytes are sent, and
on `ConnectionResetError` the client is removed from `read_list` when still
present.  Returns `(read_list, audio actually delivered)`. -/
def stream_numpy_array_audio (outcome : SendOutcome) (read_list : List ClientId)
    (audio : Audio) (client_socket : Option ClientId) :
    List ClientId × List (ClientId × Audio) :=
  match client_socket with
  | none => (read_list, [])
  | some c =>
      match outcome with
      | SendOutcome.ok => (read_list, [(c, audio)])
      | SendOutcome.connReset =>
          (if c ∈ read_list then read_list.erase c else read_list, [])

/-! ### Concrete instances used by witnesses and counterexamples -/

/-- A transcription engine for concrete runs: it transcribes the buffer
`[10]` as "a" and the grown buffer `[10, 20]` as "ab". -/
def cexEngine : Engine := fun buf =>
  if buf = [10, 20] then some ("ab") else some ("a")

/-- An always-raising transcription engine. -/
def failEngine : Engine := fun _ => none

/-- A worker state in mid-stream: client 1 has been the owner since the
boundary at time 0, its audio so far is `[10]`, transcribed as "a". -/
def midStream : SRState :=
  { phrase_time := some 0, last_sample := [10], recent_transcription := "a",
    current_client := some 1 }

/-- A reachable family of synthesis-worker states with ever longer task
queues: load the embeddings once, then enqueue `n` tasks. -/
def ttsEnqueueN : Nat → TTSState
  | 0 => load_speaker_embeddings [0] ttsInit
  | n + 1 =>
      let prev := ttsEnqueueN n
      { prev with task_queue := prev.task_queue ++ [(0, ("x"))] }

/-! ### Helper lemmas about the segmentation worker -/

theorem flush_quiet (now : Millis) (s : SRState) (pt : Millis)
    (hpt : s.phrase_time = some pt) (h : ¬ phrase_timeout_ms < now - pt) :
    flush_last_phrase now s = (s, []) := by
  unfold flush_last_phrase
  rw [hpt]
  simp [h]

theorem flush_recent_empty (now : Millis) (s : SRState)
    (h : s.recent_transcription = "") :
    flush_last_phrase now s = (s, []) := by
  unfold flush_last_phrase
  cases s.phrase_time with
  | none => rfl
  | some pt => simp [h]

theorem flush_fires (now : Millis) (s : SRState) (pt : Millis)
    (hpt : s.phrase_time = some pt) (ht : phrase_timeout_ms < now - pt)
    (hr : s.recent_transcription ≠ "") (hc : s.current_client.isSome) :
    flush_last_phrase now s =
      ({ s with
          recent_transcription := "",
          phrase_time := some now,
          last_sample := [] },
       [(s.recent_transcription, s.current_client)]) := by
  unfold flush_last_phrase
  rw [hpt]
  simp [ht, hr, hc]

theorem flush_fires_iff (now : Millis) (s : SRState) :
    (flush_last_phrase now s).2 ≠ [] ↔
      ((∃ pt, s.phrase_time = some pt ∧ phrase_timeout_ms < now - pt) ∧
       s.recent_transcription ≠ "" ∧ s.current_client.isSome) := by
  unfold flush_last_phrase
  cases hpt : s.phrase_time with
  | none => simp
  | some pt =>
      by_cases ht : phrase_timeout_ms < now - pt
      · by_cases hrc : s.recent_transcription ≠ "" ∧ s.current_client.isSome
        · simp [ht, hrc]
        · simp only [not_and_or, not_not] at hrc
          rcases hrc with hrc | hrc <;> simp [ht, hrc]
      · simp [ht]

theorem tick_idle (engine : Engine) (now : Millis) (s : SRState)
    (h : s.recent_transcription = "") :
    tick engine now [] s = ⟨s, [], []⟩ := by
  simp [tick, flush_recent_empty now s h]

theorem srRun_idle (engine : Engine) (ts : List Millis) (s : SRState)
    (h : s.recent_transcription = "") :
    srRun engine (ts.map fun t => (t, [])) s = ⟨s, [], []⟩ := by
  induction ts with
  | nil => rfl
  | cons t ts ih =>
      simp [List.map_cons, srRun, tick_idle engine t s h, ih]

theorem silence_gap_unique (engine : Engine) (s : SRState) (pt : Millis) (ts : List Millis)
    (hpt : s.phrase_time = some pt) (hr : s.recent_transcription ≠ "")
    (hc : s.current_client.isSome) (hex : ∃ t ∈ ts, phrase_timeout_ms < t - pt) :
    (srRun engine (ts.map fun t => (t, [])) s).finals
        = [(s.recent_transcription, s.current_client)] ∧
    (srRun engine (ts.map fun t => (t, [])) s).state.last_sample = [] ∧
    (srRun engine (ts.map fun t => (t, [])) s).state.recent_transcription = "" := by
  induction ts with
  | nil => simp at hex
  | cons t ts ih =>
      by_cases h : phrase_timeout_ms < t - pt
      · have htick : tick engine t [] s =
            ⟨{ s with
                recent_transcription := "",
                phrase_time := some t,
                last_sample := [] },
             [], [(s.recent_transcription, s.current_client)]⟩ := by
          simp [tick, flush_fires t s pt hpt h hr hc]
        have hrest := srRun_idle engine ts
          { s with
              recent_transcription := "",
              phrase_time := some t,
              last_sample := [] } rfl
        simp [List.map_cons, srRun, htick, hrest]
      · have htick : tick engine t [] s = ⟨s, [], []⟩ := by
          simp [tick, flush_quiet t s pt hpt h]
        have hex2 : ∃ u ∈ ts, phrase_timeout_ms < u - pt := by
          obtain ⟨u, hu, hcond⟩ := hex
          rcases List.mem_cons.mp hu with rfl | hu2
          · exact absurd hcond h
          · exact ⟨u, hu2, hcond⟩
        have hrec := ih hex2
        simpa [List.map_cons, srRun, htick] using hrec

theorem transcribe_fails (engine : Engine) (pc : Bool) (s : SRState)
    (h : engine s.last_sample = none) :
    transcribe_audio engine pc s = (s, [], []) := by
  unfold transcribe_audio
  rw [h]

theorem transcribe_gens_flag (engine : Engine) (pc : Bool) (s : SRState) :
    ∀ g ∈ (transcribe_audio engine pc s).2.1, g.add = pc := by
  unfold transcribe_audio
  cases engine s.last_sample with
  | none => simp
  | some raw =>
      by_cases h : pyStrip raw ≠ "" <;> simp [h]

theorem update_eq_spec (now : Millis) (s : SRState) :
    (update_phrase_time now s).1 = boundaryBySilenceSpec now s := by
  unfold update_phrase_time boundaryBySilenceSpec
  cases s.phrase_time with
  | none => rfl
  | some pt => by_cases h : phrase_timeout_ms < now - pt <;> simp [h]

theorem update_fires (now : Millis) (s : SRState)
    (h : boundaryBySilenceSpec now s = true) :
    (update_phrase_time now s).2 = { s with phrase_time := some now, last_sample := [] } := by
  unfold boundaryBySilenceSpec at h
  unfold update_phrase_time
  cases hpt : s.phrase_time with
  | none => rw [hpt] at h; simp at h
  | some pt =>
      rw [hpt] at h
      simp only [decide_eq_true_eq] at h
      simp [h]

theorem tick_gens_flag (engine : Engine) (now : Millis) (q : List (ClientId × Chunk))
    (s : SRState) (hq : q ≠ []) :
    ∀ g ∈ (tick engine now q s).gens,
      g.add = (update_phrase_time now (flush_last_phrase now s).1).1 := by
  cases q with
  | nil => exact absurd rfl hq
  | cons a q2 =>
      intro g hg
      simp only [tick, List.isEmpty_cons, Bool.false_eq_true, if_false] at hg
      exact transcribe_gens_flag _ _ _ g hg

/-! ### Helper lemmas about the synthesis worker -/

theorem ttsEnqueueN_embeddings (n : Nat) :
    (ttsEnqueueN n).speaker_embeddings = some [0] := by
  induction n with
  | zero => rfl
  | succ n ih => simpa [ttsEnqueueN] using ih

theorem ttsEnqueueN_length (n : Nat) : (ttsEnqueueN n).task_queue.length = n := by
  induction n with
  | zero => rfl
  | succ n ih => simp [ttsEnqueueN, ih]

theorem ttsEnqueueN_reachable (n : Nat) : TTSReachable (ttsEnqueueN n) := by
  induction n with
  | zero => exact TTSReachable.load [0] TTSReachable.start
  | succ n ih =>
      refine TTSReachable.put ("x") 0 ih ?_
      unfold synthesise
      rw [ttsEnqueueN_embeddings n]
      simp [ttsEnqueueN]
      exact (ttsEnqueueN_embeddings n).symm

/-! ### Claims -/

/-- Claim C1, counterexample: on the very first chunk (owner unset,
`recent_transcription` empty) the client-switch branch of
`__concatenate_new_audio__` still calls `final_callback`, so a
`FinalizedPhrase` is emitted although `currentOwner` is not set and
`recentText` is empty — the claim's "emitted only if currentOwner is set and
recentText is non-empty" is false. -/
theorem C1_counterexample :
    (concatenate_new_audio 0 [(1, [5])] srInit).2 = [("", none)] ∧
    srInit.recent_transcription = "" ∧ srInit.current_client = none := by
  exact ⟨by decide, rfl, rfl⟩

/-- Claim C1, amended: in the queue-drain step, for every popped chunk whose
client differs from `currentOwner`, `FinalizedPhrase{recentText,
currentOwner}` is emitted unconditionally (even when `currentOwner` is unset
or `recentText` is empty); in every such switch `recentText` is cleared,
`phraseTime` is reset to now, the buffer is cleared, and the prior owner's
pending text is finalized before any byte from the new client is appended to
the buffer or transcribed (the emitted event heads the list, and the
recursion continues from the cleared state whose buffer holds exactly the
new client's bytes). -/
theorem C1_client_switch_amended (now : Millis) (c : ClientId) (d : Chunk)
    (rest : List (ClientId × Chunk)) (s : SRState) (h : some c ≠ s.current_client) :
    concatenate_new_audio now ((c, d) :: rest) s =
      ((concatenate_new_audio now rest
          { phrase_time := some now, last_sample := d, recent_transcription := "",
            current_client := some c }).1,
       (s.recent_transcription, s.current_client)
         :: (concatenate_new_audio now rest
              { phrase_time := some now, last_sample := d, recent_transcription := "",
                current_client := some c }).2) := by
  conv_lhs => rw [concatenate_new_audio]
  simp [h]

/-- Witness for C1's amended theorem at the concrete switch of
`C1_counterexample`. -/
theorem C1_client_switch_amended_witness :
    concatenate_new_audio 0 [(1, [5])] srInit =
      ((concatenate_new_audio 0 []
          { phrase_time := some 0, last_sample := [5], recent_transcription := "",
            current_client := some 1 }).1,
       (srInit.recent_transcription, srInit.current_client)
         :: (concatenate_new_audio 0 []
              { phrase_time := some 0, last_sample := [5], recent_transcription := "",
                current_client := some 1 }).2) :=
  C1_client_switch_amended 0 1 [5] [] srInit (by decide)

/-- Claim C2, counterexample: client 1's chunks arrive at times 0 and 1000 —
a gap of exactly the 1-second phrase timeout.  The strict comparison
`now - phraseTime > phraseTimeout` is false at the tick at 1000, so no
boundary fires there: the pre-gap buffer is not cleared (it grows to
`[10, 20]`) and the only `FinalizedPhrase` of the run (the idle flush at
1050) carries "ab", the re-transcription of audio from BOTH sides of the
gap, not the text "a" accumulated before the gap.  So a gap that is exactly
≥ the timeout does not produce a `FinalizedPhrase` containing the pre-gap
text. -/
theorem C2_counterexample :
    midStream.recent_transcription = ("a") ∧
    (srRun cexEngine [(1000, [(1, [20])])] midStream).state.last_sample = [10, 20] ∧
    (srRun cexEngine [(1000, [(1, [20])]), (1050, [])] midStream).finals
        = [("ab", some 1)] ∧
    (srRun cexEngine [(1000, [(1, [20])]), (1050, [])] midStream).finals
        ≠ [(midStream.recent_transcription, midStream.current_client)] := by
  exact ⟨rfl, by decide, by decide, by decide⟩

/-- Claim C2, amended: the boundary is computed before the first pop of a
tick exactly as the spec's formula `(phraseTime set) AND (now - phraseTime >
phraseTimeout)` — with a strict comparison, and with `phraseTime` being the
time of the last boundary, not of the last arrival; when true, `phraseTime`
is set to now and the buffer is cleared, and the resulting `phraseComplete`
flag is what the tick's transcription call receives (every
`TranscriptionUpdate` of the tick carries it).  For silence gaps: from a
state with non-empty `recentText` and a set owner, a sequence of
empty-queue ticks one of which happens strictly more than the timeout after
`phraseTime` produces exactly one `FinalizedPhrase`, containing the
accumulated `recentText`, and the buffer is empty afterwards. -/
theorem C2_silence_boundary_amended :
    (∀ now s, (update_phrase_time now s).1 = boundaryBySilenceSpec now s) ∧
    (∀ now s, boundaryBySilenceSpec now s = true →
        (update_phrase_time now s).2
          = { s with phrase_time := some now, last_sample := [] }) ∧
    (∀ engine now q s, q ≠ [] → ∀ g ∈ (tick engine now q s).gens,
        g.add = (update_phrase_time now (flush_last_phrase now s).1).1) ∧
    (∀ (engine : Engine) (s : SRState) (pt : Millis) (ts : List Millis),
        s.phrase_time = some pt → s.recent_transcription ≠ "" →
        s.current_client.isSome → (∃ t ∈ ts, phrase_timeout_ms < t - pt) →
        (srRun engine (ts.map fun t => (t, [])) s).finals
            = [(s.recent_transcription, s.current_client)] ∧
        (srRun engine (ts.map fun t => (t, [])) s).state.last_sample = []) :=
  ⟨update_eq_spec, update_fires, tick_gens_flag,
   fun engine s pt ts h1 h2 h3 h4 =>
     ⟨(silence_gap_unique engine s pt ts h1 h2 h3 h4).1,
      (silence_gap_unique engine s pt ts h1 h2 h3 h4).2.1⟩⟩

/-- Witness for C2's amended theorem: a concrete silence gap emits exactly
the pending phrase. -/
theorem C2_silence_boundary_amended_witness :
    (srRun cexEngine ([1050].map fun t => (t, [])) midStream).finals
        = [(midStream.recent_transcription, midStream.current_client)] :=
  (C2_silence_boundary_amended.2.2.2 cexEngine midStream 0 [1050] rfl (by decide)
    (by decide) ⟨1050, by simp, by decide⟩).1

/-- Claim C3: the idle flush fires iff `now - phraseTime > phraseTimeout`
and `recentText` is non-empty and `currentOwner` is set (with `phraseTime`
set, which the worker maintains); when it fires it emits
`FinalizedPhrase{recentText, currentOwner}`, clears `recentText`, sets
`phraseTime = now` and clears the buffer; and once `recentText` is empty,
any number of further ticks with no new data emit no `FinalizedPhrase` at
all — the flush fires at most once per silence period. -/
theorem C3_idle_flush :
    (∀ now s, (flush_last_phrase now s).2 ≠ [] ↔
        ((∃ pt, s.phrase_time = some pt ∧ phrase_timeout_ms < now - pt) ∧
         s.recent_transcription ≠ "" ∧ s.current_client.isSome)) ∧
    (∀ now s pt, s.phrase_time = some pt → phrase_timeout_ms < now - pt →
        s.recent_transcription ≠ "" → s.current_client.isSome →
        flush_last_phrase now s =
          ({ s with
              recent_transcription := "",
              phrase_time := some now,
              last_sample := [] },
           [(s.recent_transcription, s.current_client)])) ∧
    (∀ (engine : Engine) (ts : List Millis) (s : SRState), s.recent_transcription = "" →
        (srRun engine (ts.map fun t => (t, [])) s).finals = []) :=
  ⟨flush_fires_iff, flush_fires,
   fun engine ts s h => by rw [srRun_idle engine ts s h]⟩

/-- Witness for C3 at a concrete idle flush. -/
theorem C3_idle_flush_witness :
    flush_last_phrase 2000 midStream =
      ({ midStream with
          recent_transcription := "",
          phrase_time := some 2000,
          last_sample := [] },
       [(midStream.recent_transcription, midStream.current_client)]) :=
  C3_idle_flush.2.1 2000 midStream 0 rfl (by decide) (by decide) (by decide)

/-- Claim C4: when the transcription engine raises, `__transcribe_audio__`
catches it: the step emits no `TranscriptionUpdate` and no
`FinalizedPhrase` and leaves the buffer, `phraseTime` and `recentText`
untouched; and a whole tick with a raising engine emits no generation
packet, only the flush/switch finalizations of its earlier steps, and ends
in the state those earlier steps produced — so the loop is intact and the
next tick proceeds from it normally. -/
theorem C4_engine_error :
    (∀ (engine : Engine) (pc : Bool) (s : SRState), engine s.last_sample = none →
        transcribe_audio engine pc s = (s, [], [])) ∧
    (∀ now q s, q ≠ [] →
        (tick failEngine now q s).gens = [] ∧
        (tick failEngine now q s).finals =
          (flush_last_phrase now s).2 ++
            (concatenate_new_audio now q
              (update_phrase_time now (flush_last_phrase now s).1).2).2 ∧
        (tick failEngine now q s).state =
          (concatenate_new_audio now q
            (update_phrase_time now (flush_last_phrase now s).1).2).1) := by
  constructor
  · exact transcribe_fails
  · intro now q s hq
    have hfail : ∀ (pc : Bool) (s2 : SRState), transcribe_audio failEngine pc s2 = (s2, [], []) :=
      fun pc s2 => transcribe_fails failEngine pc s2 rfl
    cases q with
    | nil => exact absurd rfl hq
    | cons a q2 => simp [tick, hfail]

/-- Witness for C4 at a concrete raising tick. -/
theorem C4_engine_error_witness :
    transcribe_audio failEngine false midStream = (midStream, [], []) :=
  C4_engine_error.1 failEngine false midStream rfl

/-- Claim C5: round-trip of a finalized phrase.  `handle_transcription`
appends exactly `(client, text)` to the synthesis task queue (when the
voice profile is loaded); when the worker reaches that task it produces
exactly one `(audio, client)` result with the synthesized audio of that
text for the same client; and dispatching it with a healthy socket delivers
exactly that audio to exactly that client, leaving the monitored set
unchanged. -/
theorem C5_round_trip :
    (∀ tts text client, tts.speaker_embeddings.isSome →
        handle_transcription tts text client
          = Except.ok { tts with task_queue := tts.task_queue ++ [(client, text)] }) ∧
    (∀ (synth : SynthEngine) (emb : List Int) (client : ClientId) (text : String)
        (rest : List (ClientId × String)),
        tts_worker_step synth
            { speaker_embeddings := some emb, task_queue := (client, text) :: rest }
          = ({ speaker_embeddings := some emb, task_queue := rest },
             [(synth text, client)])) ∧
    (∀ (synth : SynthEngine) (text : String) (client : ClientId) (rl : List ClientId),
        stream_numpy_array_audio SendOutcome.ok rl (synth text) (some client)
          = (rl, [(client, synth text)])) := by
  refine ⟨?_, fun synth emb client text rest => rfl, fun synth text client rl => rfl⟩
  intro tts text client h
  cases hemb : tts.speaker_embeddings with
  | none => rw [hemb] at h; simp at h
  | some e => simp [handle_transcription, synthesise, hemb]

/-- Witness for C5 at a concrete phrase. -/
theorem C5_round_trip_witness :
    handle_transcription (load_speaker_embeddings [0] ttsInit) ("hello") 1
      = Except.ok { load_speaker_embeddings [0] ttsInit with
          task_queue := (load_speaker_embeddings [0] ttsInit).task_queue ++ [(1, ("hello"))] } :=
  C5_round_trip.1 (load_speaker_embeddings [0] ttsInit) ("hello") 1 (by decide)

/-- Claim C6: a synthesis request before the voice profile is loaded fails
with the configuration error and is never enqueued (the task is dropped);
the synthesis worker itself is untouched by the failed call and processes
whatever is queued normally once the profile is loaded. -/
theorem C6_synthesise_before_load :
    (∀ tts text client, tts.speaker_embeddings = none →
        synthesise tts text client
          = Except.error ("TextToSpeech: Load speaker embeddings before synthesizing")) ∧
    (∀ tts text client tts2, tts.speaker_embeddings = none →
        synthesise tts text client ≠ Except.ok tts2) ∧
    (∀ (synth : SynthEngine) (emb : List Int) (client : ClientId) (text : String)
        (rest : List (ClientId × String)),
        tts_worker_step synth
            { speaker_embeddings := some emb, task_queue := (client, text) :: rest }
          = ({ speaker_embeddings := some emb, task_queue := rest },
             [(synth text, client)])) := by
  refine ⟨?_, ?_, fun synth emb client text rest => rfl⟩
  · intro tts text client h
    simp [synthesise, h]
  · intro tts text client tts2 h
    simp [synthesise, h]

/-- Witness for C6: the fresh model (`__init__` alone) rejects a request. -/
theorem C6_synthesise_before_load_witness :
    synthesise ttsInit ("hello") 1
      = Except.error ("TextToSpeech: Load speaker embeddings before synthesizing") :=
  C6_synthesise_before_load.1 ttsInit ("hello") 1 rfl

/-- Claim C7, counterexample: the dispatcher never consults the monitored
set before sending — handed a live socket of a client already absent from
`read_list`, `sendall` is attempted and (when it succeeds) the audio IS
delivered: the call is not a no-op and the audio is not discarded. -/
theorem C7_counterexample :
    (1 : ClientId) ∉ ([] : List ClientId) ∧
    (stream_numpy_array_audio SendOutcome.ok [] [3] (some 1)).2 = [(1, [3])] ∧
    (stream_numpy_array_audio SendOutcome.ok [] [3] (some 1)).2 ≠ [] := by
  exact ⟨by simp, rfl, by decide⟩

/-- Claim C7, amended: the logged no-op discard happens when the dispatcher
is handed a `None` socket (the only absence the code tests), not when the
client is merely missing from the monitored set; when a send fails with a
connection reset, that client is deregistered from the monitored set (a
no-op if already absent) and no other client's membership changes; a
successful send delivers the audio and leaves the monitored set unchanged. -/
theorem C7_dispatch_amended :
    (∀ (outcome : SendOutcome) (rl : List ClientId) (audio : Audio),
        stream_numpy_array_audio outcome rl audio none = (rl, [])) ∧
    (∀ (rl : List ClientId) (audio : Audio) (c : ClientId), rl.Nodup →
        c ∉ (stream_numpy_array_audio SendOutcome.connReset rl audio (some c)).1 ∧
        (stream_numpy_array_audio SendOutcome.connReset rl audio (some c)).2 = []) ∧
    (∀ (rl : List ClientId) (audio : Audio) (c c2 : ClientId), c2 ≠ c →
        (c2 ∈ (stream_numpy_array_audio SendOutcome.connReset rl audio (some c)).1
          ↔ c2 ∈ rl)) ∧
    (∀ (rl : List ClientId) (audio : Audio) (c : ClientId),
        stream_numpy_array_audio SendOutcome.ok rl audio (some c)
          = (rl, [(c, audio)])) := by
  refine ⟨fun outcome rl audio => rfl, ?_, ?_, fun rl audio c => rfl⟩
  · intro rl audio c hnd
    unfold stream_numpy_array_audio
    by_cases hc : c ∈ rl
    · simp [hc, hnd.not_mem_erase]
    · simp [hc]
  · intro rl audio c c2 hne
    unfold stream_numpy_array_audio
    by_cases hc : c ∈ rl
    · simp [hc, List.mem_erase_of_ne hne]
    · simp [hc]

/-- Witness for C7's amended theorem: a reset deregisters the client. -/
theorem C7_dispatch_amended_witness :
    (1 : ClientId) ∉ (stream_numpy_array_audio SendOutcome.connReset [1] [3] (some 1)).1 :=
  (C7_dispatch_amended.2.1 [1] [3] 1 (by decide)).1

/-- Claim C8: a readiness event reads at most `CHUNK = 4096` bytes; non-empty
data is pushed as `(client, bytes)` with the monitored set unchanged; zero
bytes (orderly close) or a reset removes that socket — and only that
socket — from the monitored set with no queue push. -/
theorem C8_multiplexer_read :
    (∀ (rl : List ClientId) (q : List (ClientId × Chunk)) (s : ClientId)
        (pending : List Nat), pending ≠ [] →
        recv_step rl q s (RecvOutcome.avail pending)
            = (rl, q ++ [(s, pending.take CHUNK)]) ∧
        (pending.take CHUNK).length ≤ CHUNK) ∧
    (∀ rl q s, recv_step rl q s (RecvOutcome.avail []) = (rl.erase s, q)) ∧
    (∀ rl q s, recv_step rl q s RecvOutcome.reset = (rl.erase s, q)) ∧
    (∀ (rl : List ClientId) (q : List (ClientId × Chunk)) (s c : ClientId), c ≠ s →
        (c ∈ (recv_step rl q s RecvOutcome.reset).1 ↔ c ∈ rl)) ∧
    (∀ (rl : List ClientId) (q : List (ClientId × Chunk)) (s : ClientId), rl.Nodup →
        s ∉ (recv_step rl q s RecvOutcome.reset).1) := by
  refine ⟨?_, fun rl q s => rfl, fun rl q s => rfl, ?_, ?_⟩
  · intro rl q s pending hp
    refine ⟨?_, by simp [List.length_take]⟩
    have hne : pending.take CHUNK ≠ [] := by
      cases pending with
      | nil => exact absurd rfl hp
      | cons p ps => simp [CHUNK]
    unfold recv_step
    simp [hne]
  · intro rl q s c hne
    exact List.mem_erase_of_ne hne
  · intro rl q s hnd
    exact hnd.not_mem_erase

/-- Witness for C8: a concrete one-byte read is pushed unchanged. -/
theorem C8_multiplexer_read_witness :
    recv_step [1] [] 1 (RecvOutcome.avail [7]) = ([1], [(1, [7])]) :=
  (C8_multiplexer_read.1 [1] [] 1 [7] (by decide)).1

/-- Claim C9, counterexample: the synthesis task queue is `Queue()` with no
`maxsize` — unbounded.  No fixed capacity bounds the pending entries over
all reachable states: loading the profile and then issuing `cap + 1`
`synthesise` calls reaches a state with `cap + 1` pending tasks. -/
theorem C9_counterexample :
    ¬ ∃ cap : Nat, ∀ st : TTSState, TTSReachable st → pendingCount st ≤ cap := by
  rintro ⟨cap, h⟩
  have h2 := h (ttsEnqueueN (cap + 1)) (ttsEnqueueN_reachable (cap + 1))
  simp [pendingCount, ttsEnqueueN_length] at h2

/-- Claim C9, amended: the Synthesis Task Queue is unbounded — for every
`n` there is a reachable state of the synthesis worker with more than `n`
pending `(ClientID, text)` entries. -/
theorem C9_queue_unbounded_amended (n : Nat) :
    ∃ st : TTSState, TTSReachable st ∧ n < pendingCount st := by
  refine ⟨ttsEnqueueN (n + 1), ttsEnqueueN_reachable (n + 1), ?_⟩
  simp [pendingCount, ttsEnqueueN_length]

/-- Claim C10: handed a `None` client socket, the output send returns
without delivering any bytes, without touching the monitored socket set,
and without raising (the code only logs), whatever the would-be outcome of
a send and whatever the audio. -/
theorem C10_none_socket (outcome : SendOutcome) (rl : List ClientId) (audio : Audio) :
    stream_numpy_array_audio outcome rl audio none = (rl, []) := rfl

end SpeechServer
